import Mathlib

/-!
# Verification of pytentd's HMAC authorization core (`tentd/utils/auth.py`)

A shallow embedding of the MAC request-authentication subsystem:
the `Authorization`-header parser (`parse_authstring`), the request
normalizer (`normalize_request`), the signature verifier
(`check_request`, over HMAC-SHA256 and `base64.encodestring`), the
challenge response (`authenticate_response`) and the view decorator
(`require_authorization`).

Python exceptions are made explicit: each embedded function returns
`Except PyErr _`, where `PyErr` records the class of exception the
Python code would raise on that input (Python 2 semantics, as the
source is Python 2: `str` is a byte string, `dict.has_key` exists).
-/

namespace Tentd

deriving instance DecidableEq for Except

/-- The exception classes the embedded code can raise. -/
inductive PyErr where
  | valueError      -- e.g. unpacking `split("=", 1)` of a segment with no `=`
  | typeError       -- e.g. subscripting the boolean `False`
  | keyError        -- e.g. `avars['ts']` with `'ts'` missing
  | attributeError  -- e.g. `False.has_key`
deriving DecidableEq, Repr

/-! ## Python string primitives

Modelled over `List Char` (Python 2 `str` is a byte/char sequence; the
strings handled here are ASCII, so chars model bytes faithfully). -/

/-- Python's whitespace set for `str.strip()` with no argument. -/
def pySpace (c : Char) : Bool :=
  c = ' ' ∨ c = '\t' ∨ c = '\n' ∨ c = '\x0b' ∨ c = '\x0c' ∨ c = '\r'

/-- Strip characters satisfying `p` from both ends (Python `str.strip`). -/
def stripList (p : Char → Bool) (l : List Char) : List Char :=
  ((l.dropWhile p).reverse.dropWhile p).reverse

/-- Python `s.strip()`. -/
def pyStrip (s : String) : String := ⟨stripList pySpace s.toList⟩

/-- Python `s.strip('"')`. -/
def stripQuotes (s : String) : String := ⟨stripList (fun c => c = '"') s.toList⟩

/-- Python `s.split(sep)` for a single-character separator: every occurrence
splits, empty segments are kept, and the empty string yields `[""]`. -/
def splitList (sep : Char) : List Char → List (List Char)
  | [] => [[]]
  | c :: cs =>
    match splitList sep cs with
    | [] => if c = sep then [[], []] else [[c]]   -- unreachable: result is never []
    | h :: t => if c = sep then [] :: h :: t else (c :: h) :: t

/-- Python `s.split(sep)` on strings. -/
def pySplit (sep : Char) (s : String) : List String :=
  (splitList sep s.toList).map (fun l => ⟨l⟩)

/-- Python `s.split(sep, 1)` for a single-character separator, as the
pair around the FIRST occurrence; `none` when `sep` does not occur
(Python then returns the one-element list `[s]`). -/
def splitFirst (sep : Char) : List Char → Option (List Char × List Char)
  | [] => none
  | c :: cs =>
    if c = sep then some ([], cs)
    else (splitFirst sep cs).map (fun p => (c :: p.1, p.2))

/-- Python `s.split(sep, 1)` on strings (`none` = separator absent). -/
def pySplitFirst (sep : Char) (s : String) : Option (String × String) :=
  (splitFirst sep s.toList).map (fun p => (⟨p.1⟩, ⟨p.2⟩))

/-- Python `s[n:]`. -/
def pyDrop (n : Nat) (s : String) : String := ⟨s.toList.drop n⟩

/-- Python `s.startswith(p)`. -/
def pyStartswith (s p : String) : Bool := p.toList.isPrefixOf s.toList

/-! ## Python dict (insertion-ordered association list)

`avars[key] = value` overwrites in place when the key exists, else
appends; `avars[key]` reads the stored value; `avars.has_key(k)`
tests membership. -/

/-- `d[k] = v` (Python dict assignment). -/
def dictSet (d : List (String × String)) (k v : String) : List (String × String) :=
  if d.any (fun p => p.1 = k) then
    d.map (fun p => if p.1 = k then (k, v) else p)
  else d ++ [(k, v)]

/-- `d.get(k)` / `d[k]` lookup, `none` when absent. -/
def dictGet? (d : List (String × String)) (k : String) : Option String :=
  (d.find? (fun p => p.1 = k)).map (fun p => p.2)

/-! ## `parse_authstring` -/

/-- The value `parse_authstring` returns when it does not raise: the
Python function returns the boolean `False` for an absent header or a
non-`MAC` scheme, and otherwise the dict of parsed key/value pairs. -/
inductive AuthResult where
  | failed                                   -- Python `False`
  | parsed (avars : List (String × String))  -- Python dict
deriving DecidableEq, Repr

/-- The loop body of `parse_authstring`:
`key, value = pair.strip().split("=", 1)` — a `ValueError` when the
segment holds no `=` — then `avars[key] = value.strip('"')`. -/
def parsePair (avars : List (String × String)) (pair : String) :
    Except PyErr (List (String × String)) :=
  match pySplitFirst '=' (pyStrip pair) with
  | none => Except.error PyErr.valueError
  | some kv => Except.ok (dictSet avars kv.1 (stripQuotes kv.2))

/-- `tentd.utils.auth.parse_authstring`.  `none` is Python `None`
(header absent).  Mirrors the source line by line: the `MAC ` guard
returning `False`, the split of `authstring[4:].strip()` on commas,
and the per-pair loop `parsePair`. -/
def parse_authstring (authstring : Option String) : Except PyErr AuthResult :=
  match authstring with
  | none => .ok .failed
  | some s =>
    if ¬ pyStartswith s "MAC " then .ok .failed
    else
      match (pySplit ',' (pyStrip (pyDrop 4 s))).foldlM parsePair [] with
      | .error e => .error e
      | .ok avars => .ok (.parsed avars)

/-! ## The request object

The slice of the Flask request the auth code reads, plus fields the
auth code does NOT read (`scheme`, `port`, `body`, other headers) so
that determinism over the read fields is a real statement. -/

structure Request where
  method : String
  path : String
  query_string : String
  host : String
  scheme : String
  port : Nat
  body : String
  headers : List (String × String)
deriving DecidableEq, Repr

/-- `request.headers.get(k)`: the stored value, or `None` when absent. -/
def headersGet (hs : List (String × String)) (k : String) : Option String :=
  (hs.find? (fun p => p.1 = k)).map (fun p => p.2)

/-! ## `normalize_request` -/

/-- Python `sep.join(xs)`: the elements of `xs` with `sep` between
consecutive elements (no leading or trailing separator). -/
def pyJoin (sep : String) : List String → String
  | [] => ""
  | [x] => x
  | x :: xs => x ++ sep ++ pyJoin sep xs

/-- `tentd.utils.auth.normalize_request`.  Follows the source's
statement order: parse the `Authorization` header (propagating a
`ValueError` from the parse), build `full_path = path + "?" +
query_string`, evaluate `auth.has_key('ext')` — an `AttributeError`
when `auth` is the boolean `False` — then join
`[str(auth['ts']), auth['nonce'], method, full_path, host, str(80), ext]`
with newlines, where a missing `ts` or `nonce` key raises `KeyError`. -/
def normalize_request (r : Request) : Except PyErr String :=
  match parse_authstring (headersGet r.headers "Authorization") with
  | .error e => .error e
  | .ok auth =>
    let full_path := r.path ++ "?" ++ r.query_string
    match auth with
    | .failed => .error PyErr.attributeError
    | .parsed avars =>
      let ext := match dictGet? avars "ext" with
        | some e => e
        | none => ""
      match dictGet? avars "ts" with
      | none => .error PyErr.keyError
      | some ts =>
        match dictGet? avars "nonce" with
        | none => .error PyErr.keyError
        | some nonce =>
          .ok (pyJoin "\n" [ts, nonce, r.method, full_path, r.host, "80", ext])

/-! ## SHA-256 (FIPS 180-4)

The source calls `hashlib.sha256` via `hmac.new(key, norm, sha256)`.
Embedded executably over byte lists (`Nat` values < 256), with 32-bit
words as `Nat` reduced `% 2^32`. -/

/-- 32-bit truncation. -/
def w32 (x : Nat) : Nat := x % 2 ^ 32

/-- Right rotation of a 32-bit word. -/
def rotr (n x : Nat) : Nat := w32 (x / 2 ^ n + x * 2 ^ (32 - n))

def ch (x y z : Nat) : Nat := Nat.xor (Nat.land x y) (Nat.land (Nat.xor x 0xFFFFFFFF) z)

def maj (x y z : Nat) : Nat := Nat.xor (Nat.xor (Nat.land x y) (Nat.land x z)) (Nat.land y z)

def bigSigma0 (x : Nat) : Nat := Nat.xor (Nat.xor (rotr 2 x) (rotr 13 x)) (rotr 22 x)

def bigSigma1 (x : Nat) : Nat := Nat.xor (Nat.xor (rotr 6 x) (rotr 11 x)) (rotr 25 x)

def smallSigma0 (x : Nat) : Nat := Nat.xor (Nat.xor (rotr 7 x) (rotr 18 x)) (x / 2 ^ 3)

def smallSigma1 (x : Nat) : Nat := Nat.xor (Nat.xor (rotr 17 x) (rotr 19 x)) (x / 2 ^ 10)

/-- The 64 SHA-256 round constants (FIPS 180-4 §4.2.2). -/
def sha256K : List Nat :=
  [0x428A2F98, 0x71374491, 0xB5C0FBCF, 0xE9B5DBA5,
   0x3956C25B, 0x59F111F1, 0x923F82A4, 0xAB1C5ED5,
   0xD807AA98, 0x12835B01, 0x243185BE, 0x550C7DC3,
   0x72BE5D74, 0x80DEB1FE, 0x9BDC06A7, 0xC19BF174,
   0xE49B69C1, 0xEFBE4786, 0x0FC19DC6, 0x240CA1CC,
   0x2DE92C6F, 0x4A7484AA, 0x5CB0A9DC, 0x76F988DA,
   0x983E5152, 0xA831C66D, 0xB00327C8, 0xBF597FC7,
   0xC6E00BF3, 0xD5A79147, 0x06CA6351, 0x14292967,
   0x27B70A85, 0x2E1B2138, 0x4D2C6DFC, 0x53380D13,
   0x650A7354, 0x766A0ABB, 0x81C2C92E, 0x92722C85,
   0xA2BFE8A1, 0xA81A664B, 0xC24B8B70, 0xC76C51A3,
   0xD192E819, 0xD6990624, 0xF40E3585, 0x106AA070,
   0x19A4C116, 0x1E376C08, 0x2748774C, 0x34B0BCB5,
   0x391C0CB3, 0x4ED8AA4A, 0x5B9CCA4F, 0x682E6FF3,
   0x748F82EE, 0x78A5636F, 0x84C87814, 0x8CC70208,
   0x90BEFFFA, 0xA4506CEB, 0xBEF9A3F7, 0xC67178F2]

/-- The eight working variables of the compression function. -/
structure Hash8 where
  a : Nat
  b : Nat
  c : Nat
  d : Nat
  e : Nat
  f : Nat
  g : Nat
  h : Nat
deriving DecidableEq, Repr

/-- SHA-256 initial hash value. -/
def sha256IV : Hash8 :=
  ⟨0x6A09E667, 0xBB67AE85,
   0x3C6EF372, 0xA54FF53A,
   0x510E527F, 0x9B05688C,
   0x1F83D9AB, 0x5BE0CD19⟩

/-- FIPS 180-4 §5.1.1 padding: `0x80`, zeros to 56 mod 64, then the
bit length as 8 big-endian bytes. -/
def sha256Pad (msg : List Nat) : List Nat :=
  let len := msg.length
  let zeros := (120 - (len + 1) % 64) % 64
  let bits := len * 8
  msg ++ 0x80 :: List.replicate zeros 0 ++
    [bits / 2 ^ 56 % 256, bits / 2 ^ 48 % 256, bits / 2 ^ 40 % 256, bits / 2 ^ 32 % 256,
     bits / 2 ^ 24 % 256, bits / 2 ^ 16 % 256, bits / 2 ^ 8 % 256, bits % 256]

/-- Big-endian 32-bit words from bytes. -/
def bytesToWords : List Nat → List Nat
  | b1 :: b2 :: b3 :: b4 :: rest =>
    (b1 * 2 ^ 24 + b2 * 2 ^ 16 + b3 * 2 ^ 8 + b4) :: bytesToWords rest
  | _ => []

/-- Extend the 16 block words to the 64-entry message schedule.
`w` is kept in reverse order; `n` counts the entries still to add. -/
def extendW (n : Nat) (w : List Nat) : List Nat :=
  match n with
  | 0 => w.reverse
  | n + 1 =>
    let t := w32 (smallSigma1 ((w.get? 1).getD 0) + (w.get? 6).getD 0 +
      smallSigma0 ((w.get? 14).getD 0) + (w.get? 15).getD 0)
    extendW n (t :: w)

/-- One round of the compression function, absorbing `kw = K[t] + W[t]`. -/
def sha256Round (st : Hash8) (kw : Nat) : Hash8 :=
  let t1 := w32 (st.h + bigSigma1 st.e + ch st.e st.f st.g + kw)
  let t2 := w32 (bigSigma0 st.a + maj st.a st.b st.c)
  ⟨w32 (t1 + t2), st.a, st.b, st.c, w32 (st.d + t1), st.e, st.f, st.g⟩

/-- Compress one 64-byte block into the running hash. -/
def sha256Block (st : Hash8) (block : List Nat) : Hash8 :=
  let w := extendW 48 (bytesToWords block).reverse
  let kw := sha256K.zipWith (fun k wt => w32 (k + wt)) w
  let f := kw.foldl sha256Round st
  ⟨w32 (st.a + f.a), w32 (st.b + f.b), w32 (st.c + f.c), w32 (st.d + f.d),
   w32 (st.e + f.e), w32 (st.f + f.f), w32 (st.g + f.g), w32 (st.h + f.h)⟩

/-- Fold the compression over consecutive 64-byte blocks (`fuel`
bounds the recursion; the padded message length / 64 suffices). -/
def sha256Blocks (fuel : Nat) (st : Hash8) (msg : List Nat) : Hash8 :=
  match fuel, msg with
  | _, [] => st
  | 0, _ => st
  | fuel + 1, msg => sha256Blocks fuel (sha256Block st (msg.take 64)) (msg.drop 64)

/-- Big-endian bytes of a 32-bit word. -/
def wordBytes (x : Nat) : List Nat :=
  [x / 2 ^ 24 % 256, x / 2 ^ 16 % 256, x / 2 ^ 8 % 256, x % 256]

/-- The 32-byte digest of a final hash state. -/
def stateBytes (s : Hash8) : List Nat :=
  wordBytes s.a ++ wordBytes s.b ++ wordBytes s.c ++ wordBytes s.d ++
  wordBytes s.e ++ wordBytes s.f ++ wordBytes s.g ++ wordBytes s.h

/-- `hashlib.sha256(msg).digest()`. -/
def sha256 (msg : List Nat) : List Nat :=
  let padded := sha256Pad msg
  stateBytes (sha256Blocks (padded.length / 64) sha256IV padded)

/-! ## HMAC (FIPS 198-1), as `hmac.new(key, msg, sha256)` computes it -/

/-- `hmac.new(key, msg, sha256).digest()`: block size 64; a key longer
than the block is first hashed; then inner/outer pads at `0x36`/`0x5c`. -/
def hmacSha256 (key msg : List Nat) : List Nat :=
  let k := if key.length > 64 then sha256 key else key
  let k0 := k ++ List.replicate (64 - k.length) 0
  let ipad := k0.map (fun b => Nat.xor b 0x36)
  let opad := k0.map (fun b => Nat.xor b 0x5c)
  sha256 (opad ++ sha256 (ipad ++ msg))

/-! ## `base64.encodestring` -/

/-- The base64 alphabet, indexed 0–63. -/
def b64Alphabet : List Char :=
  "ABCDEFGHIJKLMNOPQRSTUVWXYZabcdefghijklmnopqrstuvwxyz0123456789+/".toList

/-- Character for a 6-bit value. -/
def b64Char (n : Nat) : Char := b64Alphabet.getD n 'A'

/-- Plain base64 of a byte list: 3 bytes → 4 chars, with `=` padding
on a 1- or 2-byte final group. -/
def base64encode : List Nat → String
  | b1 :: b2 :: b3 :: rest =>
    ⟨[b64Char (b1 / 4), b64Char ((b1 % 4) * 16 + b2 / 16),
      b64Char ((b2 % 16) * 4 + b3 / 64), b64Char (b3 % 64)]⟩ ++ base64encode rest
  | [b1, b2] =>
    ⟨[b64Char (b1 / 4), b64Char ((b1 % 4) * 16 + b2 / 16),
      b64Char ((b2 % 16) * 4), '=']⟩
  | [b1] =>
    ⟨[b64Char (b1 / 4), b64Char ((b1 % 4) * 16), '=', '=']⟩
  | [] => ""

/-- `base64.encodestring`: the input is encoded in 57-byte slices,
each producing one base64 line TERMINATED by a newline (so any
nonempty input yields output ending in `'\n'`); the empty input
yields the empty string.  `fuel` bounds the recursion. -/
def encodestringAux (fuel : Nat) (bs : List Nat) : String :=
  match fuel, bs with
  | _, [] => ""
  | 0, _ => ""
  | fuel + 1, bs => base64encode (bs.take 57) ++ "\n" ++ encodestringAux fuel (bs.drop 57)

/-- Python 2 `base64.encodestring(bs)`. -/
def encodestring (bs : List Nat) : String := encodestringAux (bs.length + 1) bs

/-! ## `check_request` -/

/-- Byte values of a Python 2 `str` (ASCII in every reachable use, so
codepoints model the bytes). -/
def strBytes (s : String) : List Nat := s.toList.map Char.toNat

/-- `tentd.utils.auth.check_request`.  Follows the source's statement
order: parse the header, read `auth['mac']` — `TypeError` when `auth`
is `False`, `KeyError` when the key is absent — then normalize, sign
the normalized string with HMAC-SHA256 under `key`, base64-encode the
digest with `base64.encodestring`, and compare the two strings with
plain `==`. -/
def check_request (r : Request) (key : String) : Except PyErr Bool :=
  match parse_authstring (headersGet r.headers "Authorization") with
  | .error e => .error e
  | .ok .failed => .error PyErr.typeError
  | .ok (.parsed avars) =>
    match dictGet? avars "mac" with
    | none => .error PyErr.keyError
    | some reqmac =>
      match normalize_request r with
      | .error e => .error e
      | .ok norm =>
        .ok (reqmac == encodestring (hmacSha256 (strBytes key) (strBytes norm)))

/-! ## `authenticate_response` and `require_authorization` -/

/-- The slice of a Flask `Response` the auth code constructs. -/
structure Response where
  body : String
  status : Nat
  headers : List (String × String)
deriving DecidableEq, Repr

/-- `tentd.utils.auth.authenticate_response`:
`Response('Invalid MAC Credentials\n', 401, {'WWW-Authenticate': 'MAC'})`. -/
def authenticate_response : Response :=
  { body := "Invalid MAC Credentials\n", status := 401,
    headers := [("WWW-Authenticate", "MAC")] }

/-- `tentd.documents.auth.KeyPair` (the document module is not under
`src/`; only the fields the spec names and the gate touches). -/
structure KeyPair where
  mac_id : String
  secret : String
deriving DecidableEq, Repr

/-- What one call of the decorated view produces. -/
inductive GateOutcome (α : Type) where
  | challenge (resp : Response)  -- `authenticate_response()` returned
  | invoked (result : α)         -- the wrapped view function ran
  | error (e : PyErr)            -- an uncaught exception
deriving DecidableEq, Repr

/-- `tentd.utils.auth.require_authorization`'s `wrapped` function.
`func` is the protected view; `keypair_filter` models
`KeyPair.objects.filter(mac_id=...)` of the repository layer.  The
source parses the header, returns the challenge when `auth` is falsy
(`False`, or an empty dict), evaluates the keypair query — whose
result is bound but never used — and then unconditionally calls
`func`. -/
def require_authorization {α : Type} (func : Request → α)
    (keypair_filter : String → List KeyPair) (r : Request) : GateOutcome α :=
  match parse_authstring (headersGet r.headers "Authorization") with
  | .error e => .error e
  | .ok .failed => .challenge authenticate_response
  | .ok (.parsed avars) =>
    if avars.isEmpty then .challenge authenticate_response
    else
      match dictGet? avars "id" with
      | none => .error PyErr.keyError
      | some mac_id =>
        let _keypairs := keypair_filter mac_id
        .invoked (func r)

/-! ## Helper lemmas -/

theorem stateBytes_length (s : Hash8) : (stateBytes s).length = 32 := by
  simp [stateBytes, wordBytes]

theorem sha256_length (msg : List Nat) : (sha256 msg).length = 32 := by
  simp [sha256, stateBytes_length]

theorem hmacSha256_length (key msg : List Nat) : (hmacSha256 key msg).length = 32 := by
  simp [hmacSha256, sha256_length]

theorem base64encode_length :
    ∀ (n : Nat) (bs : List Nat), bs.length ≤ n →
      (base64encode bs).length = 4 * ((bs.length + 2) / 3) := by
  intro n
  induction n with
  | zero =>
    intro bs h
    have : bs = [] := List.length_eq_zero.mp (Nat.le_zero.mp h)
    subst this
    rfl
  | succ n ih =>
    intro bs h
    cases bs with
    | nil => rfl
    | cons b1 t1 =>
      cases t1 with
      | nil => simp [base64encode, String.length]
      | cons b2 t2 =>
        cases t2 with
        | nil => simp [base64encode, String.length]
        | cons b3 rest =>
          have hr : rest.length ≤ n := by
            simp only [List.length_cons] at h; omega
          have ihr := ih rest hr
          simp only [base64encode, String.length_append, ihr, List.length_cons]
          have h4 : (String.mk [b64Char (b1 / 4), b64Char (b1 % 4 * 16 + b2 / 16),
              b64Char (b2 % 16 * 4 + b3 / 64), b64Char (b3 % 64)]).length = 4 := rfl
          rw [h4]
          omega

theorem encodestring_of_short (bs : List Nat) (hne : bs ≠ []) (hle : bs.length ≤ 57) :
    encodestring bs = base64encode bs ++ "\n" := by
  match bs, hne with
  | b :: rest, _ =>
    show encodestringAux ((b :: rest).length + 1) (b :: rest) = _
    rw [List.length_cons]
    show base64encode ((b :: rest).take 57) ++ "\n" ++
      encodestringAux (rest.length + 1) ((b :: rest).drop 57) = _
    rw [List.take_of_length_le hle, List.drop_eq_nil_of_le hle]
    have haux : encodestringAux (rest.length + 1) [] = "" := by
      cases rest.length + 1 <;> rfl
    rw [haux]
    apply String.ext
    simp

theorem encodestring_of_32 (bs : List Nat) (h : bs.length = 32) :
    (encodestring bs).length = 45 ∧ (encodestring bs).data.getLast? = some '\n' := by
  have hne : bs ≠ [] := by intro hbs; rw [hbs] at h; simp at h
  have hle : bs.length ≤ 57 := by omega
  rw [encodestring_of_short bs hne hle]
  constructor
  · rw [String.length_append, base64encode_length 32 bs (by omega), h]
    rfl
  · rw [String.data_append]
    show ((base64encode bs).data ++ ['\n']).getLast? = some '\n'
    exact List.getLast?_concat _

/-- The string `normalize_request` returns when the header parses and
carries `ts` and `nonce`: the seven lines joined by newlines. -/
def canonicalString (r : Request) (ts nonce ext : String) : String :=
  pyJoin "\n" [ts, nonce, r.method, r.path ++ "?" ++ r.query_string, r.host, "80", ext]

theorem normalize_request_ok (r : Request) (avars : List (String × String))
    (ts nonce : String)
    (hp : parse_authstring (headersGet r.headers "Authorization") = .ok (.parsed avars))
    (hts : dictGet? avars "ts" = some ts)
    (hnonce : dictGet? avars "nonce" = some nonce) :
    normalize_request r =
      .ok (canonicalString r ts nonce ((dictGet? avars "ext").getD "")) := by
  simp only [normalize_request, hp, hts, hnonce, canonicalString]
  cases hext : dictGet? avars "ext" <;> simp [hext]

theorem check_request_ok (r : Request) (key : String) (avars : List (String × String))
    (reqmac ts nonce : String)
    (hp : parse_authstring (headersGet r.headers "Authorization") = .ok (.parsed avars))
    (hm : dictGet? avars "mac" = some reqmac)
    (hts : dictGet? avars "ts" = some ts)
    (hnonce : dictGet? avars "nonce" = some nonce) :
    check_request r key =
      .ok (reqmac == encodestring (hmacSha256 (strBytes key)
        (strBytes (canonicalString r ts nonce ((dictGet? avars "ext").getD ""))))) := by
  have hn := normalize_request_ok r avars ts nonce hp hts hnonce
  simp only [check_request, hp, hm, hn]

theorem macstr_ends_newline (key norm : String) :
    (encodestring (hmacSha256 (strBytes key) (strBytes norm))).data.getLast? = some '\n' :=
  (encodestring_of_32 _ (hmacSha256_length _ _)).2

theorem check_request_false_of_no_newline (r : Request) (key : String)
    (avars : List (String × String)) (reqmac ts nonce : String)
    (hp : parse_authstring (headersGet r.headers "Authorization") = .ok (.parsed avars))
    (hm : dictGet? avars "mac" = some reqmac)
    (hts : dictGet? avars "ts" = some ts)
    (hnonce : dictGet? avars "nonce" = some nonce)
    (hnl : reqmac.data.getLast? ≠ some '\n') :
    check_request r key = .ok false := by
  rw [check_request_ok r key avars reqmac ts nonce hp hm hts hnonce]
  congr 1
  rw [beq_eq_false_iff_ne]
  intro he
  exact hnl (he ▸ macstr_ends_newline key _)

/-! ### Totality lemmas: inputs on which the parse raises -/

theorem splitFirst_eq_none_of_not_mem (sep : Char) (l : List Char) (h : sep ∉ l) :
    splitFirst sep l = none := by
  induction l with
  | nil => rfl
  | cons c cs ih =>
    simp only [List.mem_cons, not_or] at h
    simp [splitFirst, if_neg (Ne.symm h.1), ih h.2]

theorem mem_of_mem_stripList (p : Char → Bool) (l : List Char) (a : Char)
    (h : a ∈ stripList p l) : a ∈ l := by
  unfold stripList at h
  rw [List.mem_reverse] at h
  have h1 := List.dropWhile_sublist (l := (l.dropWhile p).reverse) (p := p)
  have h2 := h1.mem h
  rw [List.mem_reverse] at h2
  exact (List.dropWhile_sublist (l := l) (p := p)).mem h2

theorem parsePair_error_of_no_eq (avars : List (String × String)) (pair : String)
    (h : '=' ∉ pair.toList) : parsePair avars pair = Except.error PyErr.valueError := by
  unfold parsePair pySplitFirst
  rw [splitFirst_eq_none_of_not_mem '=' (pyStrip pair).toList
    (fun hm => h (mem_of_mem_stripList pySpace pair.toList '=' hm))]
  rfl

theorem foldlM_parsePair_error (pairs : List String)
    (hbad : ∃ seg ∈ pairs, '=' ∉ seg.toList) :
    ∀ init, pairs.foldlM parsePair init = Except.error PyErr.valueError := by
  induction pairs with
  | nil => simp at hbad
  | cons p rest ih =>
    intro init
    rcases hbad with ⟨seg, hmem, hne⟩
    rcases List.mem_cons.mp hmem with hseg | hseg
    · subst hseg
      rw [List.foldlM_cons, parsePair_error_of_no_eq init seg hne]
      rfl
    · rw [List.foldlM_cons]
      cases hpp : parsePair init p with
      | error e =>
        have : e = PyErr.valueError := by
          unfold parsePair at hpp
          cases hsp : pySplitFirst '=' (pyStrip p) with
          | none => rw [hsp] at hpp; exact (Except.error.inj hpp).symm
          | some kv => rw [hsp] at hpp; simp at hpp
        subst this
        rfl
      | ok avars' =>
        show rest.foldlM parsePair avars' = _
        exact ih ⟨seg, hseg, hne⟩ avars'

theorem parse_authstring_error_of_bad_segment (s : String)
    (hmac : pyStartswith s "MAC ")
    (hseg : ∃ seg ∈ pySplit ',' (pyStrip (pyDrop 4 s)), '=' ∉ seg.toList) :
    parse_authstring (some s) = Except.error PyErr.valueError := by
  have hfold := foldlM_parsePair_error _ hseg []
  simp only [parse_authstring, hfold, hmac, not_true, if_false, Bool.not_eq_true]

theorem parse_authstring_none : parse_authstring none = .ok .failed := rfl

theorem parse_authstring_failed_of_other_scheme (s : String)
    (h : ¬ pyStartswith s "MAC ") : parse_authstring (some s) = .ok .failed := by
  simp only [parse_authstring]
  rw [if_pos (by simpa using h)]

theorem normalize_request_error_of_failed (r : Request)
    (hp : parse_authstring (headersGet r.headers "Authorization") = .ok .failed) :
    normalize_request r = .error PyErr.attributeError := by
  simp only [normalize_request, hp]

theorem check_request_error_of_failed (r : Request) (key : String)
    (hp : parse_authstring (headersGet r.headers "Authorization") = .ok .failed) :
    check_request r key = .error PyErr.typeError := by
  simp only [check_request, hp]

theorem normalize_request_error_of_parse_error (r : Request) (e : PyErr)
    (hp : parse_authstring (headersGet r.headers "Authorization") = .error e) :
    normalize_request r = .error e := by
  simp only [normalize_request, hp]

theorem check_request_error_of_parse_error (r : Request) (key : String) (e : PyErr)
    (hp : parse_authstring (headersGet r.headers "Authorization") = .error e) :
    check_request r key = .error e := by
  simp only [check_request, hp]

/-! ## Concrete requests used as witnesses -/

/-- A GET request carrying a complete, well-formed MAC header. -/
def sampleRequest : Request where
  method := "GET"
  path := "/followers/alice"
  query_string := "since=0"
  host := "example.com"
  scheme := "http"
  port := 80
  body := ""
  headers := [("Host", "example.com"),
    ("Authorization", "MAC id=\"feedbeef\", ts=\"1350\", nonce=\"n42\", mac=\"Zm9vYmFy\"")]

/-- The dict `parse_authstring` yields on `sampleRequest`'s header. -/
def sampleAvars : List (String × String) :=
  [("id", "feedbeef"), ("ts", "1350"), ("nonce", "n42"), ("mac", "Zm9vYmFy")]

/-- `sampleRequest` with every field the normalizer does not read
changed: scheme, port, body, and the extra headers. -/
def sampleRequestAltered : Request where
  method := "GET"
  path := "/followers/alice"
  query_string := "since=0"
  host := "example.com"
  scheme := "https"
  port := 443
  body := "unrelated payload"
  headers := [("Authorization",
      "MAC id=\"feedbeef\", ts=\"1350\", nonce=\"n42\", mac=\"Zm9vYmFy\""),
    ("X-Extra", "yes")]

/-- A request with no Authorization header at all. -/
def bareRequest : Request where
  method := "GET"
  path := "/profile"
  query_string := ""
  host := "example.com"
  scheme := "http"
  port := 80
  body := ""
  headers := []

/-- A request whose MAC header parses but names an id that no keypair
repository holds, with a `mac` field that can match no key (it lacks
the trailing newline `base64.encodestring` always emits). -/
def intruderRequest : Request where
  method := "DELETE"
  path := "/followers/victim"
  query_string := ""
  host := "example.com"
  scheme := "http"
  port := 80
  body := ""
  headers := [("Authorization",
    "MAC id=\"unknownid\", ts=\"100\", nonce=\"n1\", mac=\"forged\"")]

/-- The dict `parse_authstring` yields on `intruderRequest`'s header. -/
def intruderAvars : List (String × String) :=
  [("id", "unknownid"), ("ts", "100"), ("nonce", "n1"), ("mac", "forged")]

/-! ## The claims -/

/-- Claim C1 (code defect): the decorator does NOT gate invocation on
signature verification.  On `intruderRequest` — whose id is unknown
to the (empty) repository and whose `mac` field matches no key, since
`check_request` returns `.ok false` for it under every secret — the
wrapped view is still invoked. -/
theorem C1_gate_invokes_unverified :
    require_authorization (fun _ => (1 : Nat)) (fun _ => []) intruderRequest =
      GateOutcome.invoked 1 ∧
    ∀ key : String, check_request intruderRequest key = Except.ok false := by
  refine ⟨by decide, fun key => ?_⟩
  exact check_request_false_of_no_newline intruderRequest key intruderAvars
    "forged" "100" "n1" (by decide) (by decide) (by decide) (by decide) (by decide)

/-- Claim C2 (code defect): a header missing required fields does not
yield a parse failure: `parse_authstring 'MAC id="1"'` returns the
partially-populated dict `[("id", "1")]`, not the `False` failure
value (and raises nothing). -/
theorem C2_partial_dict_on_missing_fields :
    parse_authstring (some "MAC id=\"1\"") =
      Except.ok (AuthResult.parsed [("id", "1")]) := by decide

/-- Claim C3: on every request whose MAC header parses with all of
`id`, `ts`, `nonce`, `mac` present, and for every secret key,
`check_request` raises nothing and returns `.ok` of exactly the
boolean comparison of the supplied `mac` field against
`base64.encodestring` of the HMAC-SHA256 of the canonical string
under the key; it returns `.ok true` precisely on equality, and
`.ok false` (not an exception) on mismatch. -/
theorem C3_verifier_boolean_comparison (r : Request) (key : String)
    (avars : List (String × String)) (kid reqmac ts nonce : String)
    (hp : parse_authstring (headersGet r.headers "Authorization") = .ok (.parsed avars))
    (_hid : dictGet? avars "id" = some kid)
    (hm : dictGet? avars "mac" = some reqmac)
    (hts : dictGet? avars "ts" = some ts)
    (hnonce : dictGet? avars "nonce" = some nonce) :
    ∃ norm : String, normalize_request r = Except.ok norm ∧
      check_request r key =
        Except.ok (reqmac == encodestring (hmacSha256 (strBytes key) (strBytes norm))) ∧
      (check_request r key = Except.ok true ↔
        reqmac = encodestring (hmacSha256 (strBytes key) (strBytes norm))) := by
  refine ⟨canonicalString r ts nonce ((dictGet? avars "ext").getD ""),
    normalize_request_ok r avars ts nonce hp hts hnonce,
    check_request_ok r key avars reqmac ts nonce hp hm hts hnonce, ?_⟩
  rw [check_request_ok r key avars reqmac ts nonce hp hm hts hnonce]
  constructor
  · intro h
    exact eq_of_beq (Except.ok.inj h)
  · intro h
    rw [h]
    simp

/-- Witness for C3 at `sampleRequest` under the key `topsecret`. -/
theorem C3_verifier_boolean_comparison_witness :
    ∃ norm : String, normalize_request sampleRequest = Except.ok norm ∧
      check_request sampleRequest "topsecret" =
        Except.ok ("Zm9vYmFy" ==
          encodestring (hmacSha256 (strBytes "topsecret") (strBytes norm))) ∧
      (check_request sampleRequest "topsecret" = Except.ok true ↔
        "Zm9vYmFy" =
          encodestring (hmacSha256 (strBytes "topsecret") (strBytes norm))) :=
  C3_verifier_boolean_comparison sampleRequest "topsecret" sampleAvars
    "feedbeef" "Zm9vYmFy" "1350" "n42"
    (by decide) (by decide) (by decide) (by decide) (by decide)

/-- Claim C4: on every request whose MAC header parses with `ts` and
`nonce` present, the normalizer returns exactly the string whose
newline-joined lines are, in order: timestamp, nonce, the HTTP method
as received, the path concatenated with `?` and the query (the `?`
present even for an empty query), the host, the port line, and the
`ext` field (the empty string when `ext` is absent). -/
theorem C4_normalizer_exact_lines (r : Request) (avars : List (String × String))
    (ts nonce : String)
    (hp : parse_authstring (headersGet r.headers "Authorization") = .ok (.parsed avars))
    (hts : dictGet? avars "ts" = some ts)
    (hnonce : dictGet? avars "nonce" = some nonce) :
    normalize_request r = Except.ok
      (ts ++ "\n" ++ nonce ++ "\n" ++ r.method ++ "\n" ++
        (r.path ++ "?" ++ r.query_string) ++ "\n" ++ r.host ++ "\n" ++ "80" ++ "\n" ++
        (dictGet? avars "ext").getD "") := by
  rw [normalize_request_ok r avars ts nonce hp hts hnonce]
  congr 1
  apply String.ext
  simp [canonicalString, pyJoin, String.data_append]

/-- Witness for C4 at `sampleRequest` (empty query would also do;
here the query is `since=0` and `ext` is absent). -/
theorem C4_normalizer_exact_lines_witness :
    normalize_request sampleRequest = Except.ok
      ("1350" ++ "\n" ++ "n42" ++ "\n" ++ sampleRequest.method ++ "\n" ++
        (sampleRequest.path ++ "?" ++ sampleRequest.query_string) ++ "\n" ++
        sampleRequest.host ++ "\n" ++ "80" ++ "\n" ++
        (dictGet? sampleAvars "ext").getD "") :=
  C4_normalizer_exact_lines sampleRequest sampleAvars "1350" "n42"
    (by decide) (by decide) (by decide)

/-- Claim C5: whenever `normalize_request` returns a canonical string
at all, that string is the newline-join of seven lines whose sixth is
the literal `"80"` — for every request, whatever its actual scheme or
port. -/
theorem C5_port_line_always_80 (r : Request) (s : String)
    (h : normalize_request r = Except.ok s) :
    ∃ l : List String, s = pyJoin "\n" l ∧ l.length = 7 ∧ l[5]? = some "80" := by
  cases hp : parse_authstring (headersGet r.headers "Authorization") with
  | error e =>
    rw [normalize_request_error_of_parse_error r e hp] at h
    exact absurd h (by simp)
  | ok auth =>
    cases auth with
    | failed =>
      rw [normalize_request_error_of_failed r hp] at h
      exact absurd h (by simp)
    | parsed avars =>
      cases hts : dictGet? avars "ts" with
      | none =>
        have herr : normalize_request r = .error PyErr.keyError := by
          simp only [normalize_request, hp, hts]
        rw [herr] at h
        exact absurd h (by simp)
      | some ts =>
        cases hnonce : dictGet? avars "nonce" with
        | none =>
          have herr : normalize_request r = .error PyErr.keyError := by
            simp only [normalize_request, hp, hts, hnonce]
          rw [herr] at h
          exact absurd h (by simp)
        | some nonce =>
          rw [normalize_request_ok r avars ts nonce hp hts hnonce] at h
          exact ⟨[ts, nonce, r.method, r.path ++ "?" ++ r.query_string, r.host, "80",
            (dictGet? avars "ext").getD ""], (Except.ok.inj h).symm, rfl, rfl⟩

/-- Witness for C5 at `sampleRequest`, whose port field is 80 here but
whose header-derived lines are concrete. -/
theorem C5_port_line_always_80_witness :
    ∃ l : List String,
      "1350\nn42\nGET\n/followers/alice?since=0\nexample.com\n80\n" = pyJoin "\n" l ∧
      l.length = 7 ∧ l[5]? = some "80" :=
  C5_port_line_always_80 sampleRequest
    "1350\nn42\nGET\n/followers/alice?since=0\nexample.com\n80\n" (by decide)

/-- Claim C7: every challenge the gate produces is the one fixed
response: status 401, header `WWW-Authenticate: MAC`, and the constant
plain-text body — identical whatever the rejection cause. -/
theorem C7_challenge_fixed_response {α : Type} (func : Request → α)
    (keypair_filter : String → List KeyPair) (r : Request) (resp : Response)
    (h : require_authorization func keypair_filter r = GateOutcome.challenge resp) :
    resp = authenticate_response ∧ resp.status = 401 ∧
      headersGet resp.headers "WWW-Authenticate" = some "MAC" ∧
      resp.body = "Invalid MAC Credentials\n" := by
  have hresp : resp = authenticate_response := by
    unfold require_authorization at h
    cases hp : parse_authstring (headersGet r.headers "Authorization") with
    | error e => rw [hp] at h; simp at h
    | ok auth =>
      rw [hp] at h
      cases auth with
      | failed =>
        simp only [GateOutcome.challenge.injEq] at h
        exact h.symm
      | parsed avars =>
        by_cases he : avars.isEmpty
        · simp only [he, if_true, GateOutcome.challenge.injEq] at h
          exact h.symm
        · cases hid : dictGet? avars "id" with
          | none => simp [he, hid] at h
          | some kid => simp [he, hid] at h
  subst hresp
  exact ⟨rfl, rfl, rfl, rfl⟩

/-- Witness for C7: the gate's challenge on a request with no
Authorization header. -/
theorem C7_challenge_fixed_response_witness :
    require_authorization (fun _ => (0 : Nat)) (fun _ => []) bareRequest =
      GateOutcome.challenge authenticate_response ∧
    (authenticate_response.status = 401 ∧
      headersGet authenticate_response.headers "WWW-Authenticate" = some "MAC" ∧
      authenticate_response.body = "Invalid MAC Credentials\n") :=
  ⟨by decide,
    (C7_challenge_fixed_response (fun _ => (0 : Nat)) (fun _ => [])
      bareRequest authenticate_response (by decide)).2⟩

/-- Claim C8: the normalizer is a pure function of the Authorization
header, method, path, query string and host: two requests agreeing on
those five fields — whatever their scheme, port, body or other
headers — normalize identically. -/
theorem C8_normalizer_deterministic (r1 r2 : Request)
    (hauth : headersGet r1.headers "Authorization" = headersGet r2.headers "Authorization")
    (hmethod : r1.method = r2.method) (hpath : r1.path = r2.path)
    (hquery : r1.query_string = r2.query_string) (hhost : r1.host = r2.host) :
    normalize_request r1 = normalize_request r2 := by
  unfold normalize_request
  rw [hauth]
  simp only [hmethod, hpath, hquery, hhost]

/-- Witness for C8: `sampleRequest` and `sampleRequestAltered` differ
in scheme, port, body and extra headers, yet normalize identically. -/
theorem C8_normalizer_deterministic_witness :
    normalize_request sampleRequest = normalize_request sampleRequestAltered :=
  C8_normalizer_deterministic sampleRequest sampleRequestAltered
    (by decide) rfl rfl rfl rfl

/-- Claim C9: on a request whose Authorization header is absent, does
not begin with `MAC `, or contains a comma segment with no `=`, the
functions `normalize_request` and `check_request` do not return a
failure value: they end in a raised exception (`AttributeError` or
`TypeError` from the boolean `False`, or the `ValueError` of the
unpacking), so they are not total over the public input space. -/
theorem C9_auth_functions_not_total (r : Request)
    (h : headersGet r.headers "Authorization" = none ∨
      (∃ s, headersGet r.headers "Authorization" = some s ∧ ¬ pyStartswith s "MAC ") ∨
      (∃ s, headersGet r.headers "Authorization" = some s ∧ pyStartswith s "MAC " ∧
        ∃ seg ∈ pySplit ',' (pyStrip (pyDrop 4 s)), '=' ∉ seg.toList)) :
    (∃ e, normalize_request r = Except.error e) ∧
    ∀ key : String, ∃ e, check_request r key = Except.error e := by
  have hcases : parse_authstring (headersGet r.headers "Authorization") = .ok .failed ∨
      parse_authstring (headersGet r.headers "Authorization") =
        .error PyErr.valueError := by
    rcases h with h0 | ⟨s, hs, hns⟩ | ⟨s, hs, hstarts, hbad⟩
    · left; rw [h0]; rfl
    · left; rw [hs]; exact parse_authstring_failed_of_other_scheme s hns
    · right; rw [hs]; exact parse_authstring_error_of_bad_segment s hstarts hbad
  rcases hcases with hp | hp
  · exact ⟨⟨_, normalize_request_error_of_failed r hp⟩,
      fun key => ⟨_, check_request_error_of_failed r key hp⟩⟩
  · exact ⟨⟨_, normalize_request_error_of_parse_error r _ hp⟩,
      fun key => ⟨_, check_request_error_of_parse_error r key _ hp⟩⟩

/-- Witness for C9: the absent-header case. -/
theorem C9_auth_functions_not_total_witness :
    headersGet bareRequest.headers "Authorization" = none ∧
    ((∃ e, normalize_request bareRequest = Except.error e) ∧
      ∀ key : String, ∃ e, check_request bareRequest key = Except.error e) :=
  ⟨rfl, C9_auth_functions_not_total bareRequest (Or.inl rfl)⟩

theorem encodestring_hmac (key m : List Nat) :
    encodestring (hmacSha256 key m) = base64encode (hmacSha256 key m) ++ "\n" := by
  apply encodestring_of_short
  · have hlen := hmacSha256_length key m
    intro hnil
    rw [hnil] at hlen
    simp at hlen
  · rw [hmacSha256_length]
    omega

/-- Claim C10: the string `check_request` compares against is
`base64.encodestring` of the 32-byte HMAC-SHA256 digest: the 44
base64 characters followed by a trailing newline (45 characters
ending in `'\n'`); verification returns true only on exact equality
with it, so a supplied `mac` that does not end in a newline never
matches. -/
theorem C10_mac_needs_trailing_newline (r : Request) (key : String)
    (avars : List (String × String)) (reqmac ts nonce : String)
    (hp : parse_authstring (headersGet r.headers "Authorization") = .ok (.parsed avars))
    (hm : dictGet? avars "mac" = some reqmac)
    (hts : dictGet? avars "ts" = some ts)
    (hnonce : dictGet? avars "nonce" = some nonce) :
    ∃ norm macstr : String,
      normalize_request r = Except.ok norm ∧
      macstr = encodestring (hmacSha256 (strBytes key) (strBytes norm)) ∧
      macstr = base64encode (hmacSha256 (strBytes key) (strBytes norm)) ++ "\n" ∧
      macstr.length = 45 ∧
      macstr.data.getLast? = some '\n' ∧
      check_request r key = Except.ok (reqmac == macstr) ∧
      (reqmac.data.getLast? ≠ some '\n' → check_request r key = Except.ok false) :=
  ⟨canonicalString r ts nonce ((dictGet? avars "ext").getD ""),
    encodestring (hmacSha256 (strBytes key)
      (strBytes (canonicalString r ts nonce ((dictGet? avars "ext").getD "")))),
    normalize_request_ok r avars ts nonce hp hts hnonce,
    rfl,
    encodestring_hmac _ _,
    (encodestring_of_32 _ (hmacSha256_length _ _)).1,
    macstr_ends_newline key _,
    check_request_ok r key avars reqmac ts nonce hp hm hts hnonce,
    fun hnl => check_request_false_of_no_newline r key avars reqmac ts nonce
      hp hm hts hnonce hnl⟩

/-- Witness for C10 at `sampleRequest` under the key `topsecret`;
its `mac` field `Zm9vYmFy` ends in `y`, not a newline. -/
theorem C10_mac_needs_trailing_newline_witness :
    ∃ norm macstr : String,
      normalize_request sampleRequest = Except.ok norm ∧
      macstr = encodestring (hmacSha256 (strBytes "topsecret") (strBytes norm)) ∧
      macstr = base64encode (hmacSha256 (strBytes "topsecret") (strBytes norm)) ++ "\n" ∧
      macstr.length = 45 ∧
      macstr.data.getLast? = some '\n' ∧
      check_request sampleRequest "topsecret" = Except.ok ("Zm9vYmFy" == macstr) ∧
      (("Zm9vYmFy" : String).data.getLast? ≠ some '\n' →
        check_request sampleRequest "topsecret" = Except.ok false) :=
  C10_mac_needs_trailing_newline sampleRequest "topsecret" sampleAvars
    "Zm9vYmFy" "1350" "n42" (by decide) (by decide) (by decide) (by decide)

end Tentd
